import Mathlib

/-!
Shallow embedding of the sync read path of the Dendrite sync API shared storage
layer (`syncapi/storage/shared`, package `shared`).  Database tables are modelled
as records of query functions returning `Except DBError`, mirroring the Go store
interfaces; the functions of this file translate the Go methods of
`DatabaseTransaction` line by line.  Go `sql.ErrNoRows` is `DBError.noRows`;
`fmt.Errorf` wrapping with a context string is `DBError.wrapped`.
-/

namespace SyncShared

/-- Stream positions are 64-bit integer counters; modelled as `Int`. -/
abbrev StreamPosition := Int

/-- A half-open range on one stream, `types.Range`. -/
structure Range where
  fromPos : StreamPosition
  toPos : StreamPosition
deriving DecidableEq

/-- A topological token `(depth, pdu position)`, `types.TopologyToken`. -/
structure TopologyToken where
  depth : StreamPosition := 0
  pduPosition : StreamPosition := 0
deriving DecidableEq

/-- Membership constants of `gomatrixserverlib`. -/
def GMSL.Join : String := "join"

/-- The peek pseudo-membership constant of `gomatrixserverlib`. -/
def GMSL.Peek : String := "peek"

/-- The leave membership constant of `gomatrixserverlib`. -/
def GMSL.Leave : String := "leave"

/-- A room event (`gomatrixserverlib.HeaderedEvent`), restricted to the fields
the sync read path inspects: identity, type, state key, sender and the
membership carried in content and in the previous content. -/
structure Event where
  eventID : String
  type : String
  stateKey : Option String
  sender : String
  membership : String
  prevMembership : String
deriving DecidableEq

/-- A client transaction identifier attached to a locally-sent event. -/
structure TransactionID where
  sessionID : Int
  transactionID : String
deriving DecidableEq

/-- `types.StreamEvent`: an event together with the stream position at which it
became visible, and the optional transaction identifier recorded with it. -/
structure StreamEvent where
  event : Event
  streamPosition : StreamPosition
  transactionID : Option TransactionID := none
deriving DecidableEq

/-- An event as delivered to the caller: the event plus the optional
`transaction_id` unsigned field that `StreamEventsToEvents` may attach. -/
structure OutputEvent where
  event : Event
  unsignedTransactionID : Option String := none
deriving DecidableEq

/-- `userapi.Device`: the requesting device. -/
structure Device where
  id : String
  userID : String
  sessionID : Int

/-- `types.Peek`: one peek subscription row. -/
structure Peek where
  roomID : String
  new : Bool
  deleted : Bool
deriving DecidableEq

/-- `types.StateDelta`: the per-room diff shipped to the client. -/
structure StateDelta where
  membership : String
  membershipPos : StreamPosition := 0
  stateEvents : List OutputEvent := []
  roomID : String
  newlyJoined : Bool := false
deriving DecidableEq

/-- `types.SendToDeviceEvent`, with only an opaque payload. -/
structure SendToDeviceEvent where
  content : String
deriving DecidableEq

/-- A state filter; the shared layer only passes it through to the store. -/
inductive StateFilter where
  | mk
deriving DecidableEq

/-- A room event filter; the shared layer reads only its limit. -/
structure RoomEventFilter where
  limit : Int
deriving DecidableEq

/-- Database errors: `noRows` is Go `sql.ErrNoRows`; `storage` is any other
backend failure; `wrapped` is a `fmt.Errorf` wrap with a context string. -/
inductive DBError where
  | noRows
  | storage (msg : String)
  | wrapped (context : String) (err : DBError)
deriving DecidableEq

/-- Lookup in an association list keyed by strings; Go map read. -/
def alistGet {α : Type} : List (String × α) → String → Option α
  | [], _ => none
  | (k2, v) :: rest, k => if k2 = k then some v else alistGet rest k

/-- Insert or overwrite in an association list keyed by strings; Go map write. -/
def alistInsert {α : Type} : List (String × α) → String → α → List (String × α)
  | [], k, v => [(k, v)]
  | (k2, v2) :: rest, k, v =>
    if k2 = k then (k, v) :: rest else (k2, v2) :: alistInsert rest k v

/-- The underlying stores reachable from a `DatabaseTransaction`, as a record of
query functions.  Each field stands for one table-level query the shared layer
delegates to. -/
structure Store where
  selectRoomIDsWithAnyMembership : String → Except DBError (List (String × String))
  selectStateInRange : Range → StateFilter → List String →
    Except DBError (List (String × List String) × List (String × StreamEvent))
  fetchMissingStateEvents : List String → Except DBError (List StreamEvent)
  selectPeeksInRange : String → String → Range → Except DBError (List Peek)
  selectCurrentState : String → StateFilter → List String → Except DBError (List Event)
  selectEventIDsInRange : String → StreamPosition → StreamPosition → StreamPosition →
    Int → Bool → Except DBError (List String)
  selectEvents : List String → Option RoomEventFilter → Bool → Except DBError (List StreamEvent)
  selectStreamToTopologicalPosition : String → StreamPosition → Bool → Except DBError StreamPosition
  selectMaxPositionInTopology : String → Except DBError (StreamPosition × StreamPosition)
  selectPositionInTopology : String → Except DBError (StreamPosition × StreamPosition)
  selectSendToDeviceMessages : String → String → StreamPosition → StreamPosition →
    Except DBError (StreamPosition × List SendToDeviceEvent)

/-- A SQL transaction handle, carrying the outcomes of commit and rollback. -/
structure SqlTx where
  commitResult : Option DBError
  rollbackResult : Option DBError

/-- `DatabaseTransaction`: the snapshot session, holding an optional SQL
transaction handle. -/
structure DatabaseTransaction where
  txn : Option SqlTx

/-- `DatabaseTransaction.Commit`: a nil handle commits as a no-op. -/
def DatabaseTransaction.Commit (d : DatabaseTransaction) : Option DBError :=
  match d.txn with
  | none => none
  | some t => t.commitResult

/-- `DatabaseTransaction.Rollback`: a nil handle rolls back as a no-op. -/
def DatabaseTransaction.Rollback (d : DatabaseTransaction) : Option DBError :=
  match d.txn with
  | none => none
  | some t => t.rollbackResult

/-- Modelled from the spec: `TopologyToken.Decrement` (defined in
`syncapi/types`, outside the source under review) moves the token one slot
earlier in topology, deriving a backward token from a known event. -/
def TopologyToken.decrement (t : TopologyToken) : TopologyToken :=
  if t.depth - 1 ≤ 0 then { depth := 1, pduPosition := 0 }
  else { depth := t.depth - 1, pduPosition := 9223372036854775807 }

/-- Modelled from the spec: `getMembershipFromEvent` (outside the source under
review) extracts the membership and previous membership when the event is an
`m.room.member` event whose state key is the given user, and empty strings
otherwise. -/
def getMembershipFromEvent (ev : Event) (userID : String) : String × String :=
  if ev.type = "m.room.member" ∧ ev.stateKey = some userID then
    (ev.membership, ev.prevMembership)
  else ("", "")

/-- Modelled from the spec: `Database.StreamEventsToEvents` (outside the source
under review) converts stream events to delivered events, attaching the
`transaction_id` unsigned field only when a device context is supplied and the
event carries a transaction identifier recorded by the same user and session. -/
def StreamEventsToEvents (device : Option Device) (events : List StreamEvent) :
    List OutputEvent :=
  events.map fun se =>
    match device, se.transactionID with
    | some dev, some txid =>
      if dev.userID = se.event.sender ∧ dev.sessionID = txid.sessionID then
        { event := se.event, unsignedTransactionID := some txid.transactionID }
      else { event := se.event }
    | _, _ => { event := se.event }

/-- `currentStateStreamEventsForRoom`: select the full current state of a room
and synthesise stream events at stream position zero. -/
def currentStateStreamEventsForRoom (store : Store) (roomID : String)
    (stateFilter : StateFilter) : Except DBError (List StreamEvent) :=
  match store.selectCurrentState roomID stateFilter [] with
  | .error err => .error err
  | .ok allState => .ok (allState.map fun ev => { event := ev, streamPosition := 0 })

/-- Modelled from the spec: `Database.fetchStateEvents` (outside the source
under review) assembles the per-room state-event lists from the identifiers
returned by the range query and the accompanying event map, fetching missing
events from the event store. -/
def fetchStateEvents (store : Store) :
    List (String × List String) → List (String × StreamEvent) →
    Except DBError (List (String × List StreamEvent))
  | [], _ => .ok []
  | (roomID, ids) :: rest, eventMap =>
    let found := ids.filterMap fun id => alistGet eventMap id
    let missingIDs := ids.filter fun id => (alistGet eventMap id).isNone
    match (if missingIDs.isEmpty then Except.ok [] else store.fetchMissingStateEvents missingIDs) with
    | .error err => .error err
    | .ok missing =>
      match fetchStateEvents store rest eventMap with
      | .error err => .error err
      | .ok tail => .ok ((roomID, found ++ missing) :: tail)

/-- `Events`: look up a list of events by event ID; no device context is
supplied to `StreamEventsToEvents`. -/
def Events (store : Store) (eventIDs : List String) : Except DBError (List OutputEvent) :=
  match store.selectEvents eventIDs none false with
  | .error err => .error err
  | .ok streamEvents => .ok (StreamEventsToEvents none streamEvents)

/-- `GetEventsInTopologicalRange`: derive the depth bounds from the two tokens
and the direction, query the event IDs in range, then materialise the events. -/
def GetEventsInTopologicalRange (store : Store) (fromTok toTok : TopologyToken)
    (roomID : String) (filter : RoomEventFilter) (backwardOrdering : Bool) :
    Except DBError (List StreamEvent) :=
  let bounds : StreamPosition × StreamPosition × StreamPosition :=
    if backwardOrdering then (toTok.depth, fromTok.depth, fromTok.pduPosition)
    else (fromTok.depth, toTok.depth, 0)
  match store.selectEventIDsInRange roomID bounds.1 bounds.2.1 bounds.2.2
      filter.limit (!backwardOrdering) with
  | .error err => .error err
  | .ok eIDs => store.selectEvents eIDs (some filter) true

/-- `MaxTopologicalPosition`: current maximum topology position of a room. -/
def MaxTopologicalPosition (store : Store) (roomID : String) :
    Except DBError TopologyToken :=
  match store.selectMaxPositionInTopology roomID with
  | .error err => .error err
  | .ok (depth, streamPos) => .ok { depth := depth, pduPosition := streamPos }

/-- `StreamToTopologicalPosition`: translate a stream cursor to a topology
token, absorbing the no-rows case in both directions. -/
def StreamToTopologicalPosition (store : Store) (roomID : String)
    (streamPos : StreamPosition) (backwardOrdering : Bool) :
    Except DBError TopologyToken :=
  match store.selectStreamToTopologicalPosition roomID streamPos backwardOrdering with
  | .error .noRows =>
    if backwardOrdering then .ok { pduPosition := streamPos }
    else
      match store.selectMaxPositionInTopology roomID with
      | .error err => .error (.wrapped "d.Topology.SelectMaxPositionInTopology" err)
      | .ok (topoPos, sPos) => .ok { depth := topoPos, pduPosition := sPos }
  | .error err => .error (.wrapped "d.Topology.SelectStreamToTopologicalPosition" err)
  | .ok topoPos => .ok { depth := topoPos, pduPosition := streamPos }

/-- `GetBackwardTopologyPos`: the zero token for an empty event list, otherwise
the decremented topology position of the first event. -/
def GetBackwardTopologyPos (store : Store) (events : List StreamEvent) :
    Except DBError TopologyToken :=
  match events with
  | [] => .ok {}
  | e :: _ =>
    match store.selectPositionInTopology e.event.eventID with
    | .error err => .error err
    | .ok (pos, spos) => .ok (TopologyToken.decrement { depth := pos, pduPosition := spos })

/-- `SendToDeviceUpdatesForSync`: Go-style triple return of cursor, events and
optional error. -/
def SendToDeviceUpdatesForSync (store : Store) (userID deviceID : String)
    (fromPos toPos : StreamPosition) :
    StreamPosition × List SendToDeviceEvent × Option DBError :=
  match store.selectSendToDeviceMessages userID deviceID fromPos toPos with
  | .error err =>
    (fromPos, [], some (.wrapped "d.SendToDevice.SelectSendToDeviceMessages" err))
  | .ok (lastPos, events) =>
    if events = [] then (toPos, [], none) else (lastPos, events, none)

/-- The Go pattern `if err != nil && err != sql.ErrNoRows` around the peeks
lookup: a no-rows result is absorbed into an empty peek list. -/
def absorbNoRowsPeeks (res : Except DBError (List Peek)) : Except DBError (List Peek) :=
  match res with
  | .error .noRows => .ok []
  | other => other

/-- The peek pass of `GetStateDeltas`: for each new peek replace the state of
the room with the full current state (skipping the peek on no rows), and for
each non-deleted peek append a peek delta. -/
def addPeekDeltas (store : Store) (device : Device) (stateFilter : StateFilter) :
    List Peek → List (String × List StreamEvent) → List StateDelta →
    Except DBError (List StateDelta × List (String × List StreamEvent))
  | [], state, deltas => .ok (deltas, state)
  | peek :: rest, state, deltas =>
    if peek.new then
      match currentStateStreamEventsForRoom store peek.roomID stateFilter with
      | .error .noRows => addPeekDeltas store device stateFilter rest state deltas
      | .error err => .error err
      | .ok s =>
        let state2 := alistInsert state peek.roomID s
        let deltas2 :=
          if peek.deleted then deltas
          else deltas ++ [{ membership := GMSL.Peek,
                            stateEvents := StreamEventsToEvents (some device)
                              ((alistGet state2 peek.roomID).getD []),
                            roomID := peek.roomID }]
        addPeekDeltas store device stateFilter rest state2 deltas2
    else
      let deltas2 :=
        if peek.deleted then deltas
        else deltas ++ [{ membership := GMSL.Peek,
                          stateEvents := StreamEventsToEvents (some device)
                            ((alistGet state peek.roomID).getD []),
                          roomID := peek.roomID }]
      addPeekDeltas store device stateFilter rest state deltas2

/-- The inner scan of the membership-classification pass of `GetStateDeltas`
over the state events of one room.  Mirrors the Go loop: a membership event
that is a join with a different previous membership replaces the state of the
room with the full current state and marks it newly joined, then the scan
continues with the next event; any other membership event stops the scan
reporting the membership and its stream position. -/
def scanStateEvents (store : Store) (userID : String) (stateFilter : StateFilter)
    (roomID : String) :
    List StreamEvent → List (String × List StreamEvent) → Bool →
    Except DBError (Option (String × StreamPosition) × List (String × List StreamEvent) × Bool)
  | [], state, nj => .ok (none, state, nj)
  | ev :: rest, state, nj =>
    let mp := getMembershipFromEvent ev.event userID
    if mp.1 = "" then scanStateEvents store userID stateFilter roomID rest state nj
    else if mp.1 = GMSL.Join ∧ mp.2 ≠ mp.1 then
      match currentStateStreamEventsForRoom store roomID stateFilter with
      | .error .noRows => scanStateEvents store userID stateFilter roomID rest state nj
      | .error err => .error err
      | .ok s =>
        scanStateEvents store userID stateFilter roomID rest (alistInsert state roomID s) true
    else .ok (some (mp.1, ev.streamPosition), state, nj)

/-- The membership-classification pass of `GetStateDeltas`: scan each entry of
the state map, appending a delta when the scan of a room reports a membership
change and collecting the rooms marked newly joined. -/
def classifyRooms (store : Store) (device : Device) (userID : String)
    (stateFilter : StateFilter) :
    List (String × List StreamEvent) → List (String × List StreamEvent) →
    List StateDelta → List String →
    Except DBError (List StateDelta × List (String × List StreamEvent) × List String)
  | [], state, deltas, newlyJoined => .ok (deltas, state, newlyJoined)
  | (roomID, stateStreamEvents) :: rest, state, deltas, newlyJoined =>
    match scanStateEvents store userID stateFilter roomID stateStreamEvents state false with
    | .error err => .error err
    | .ok (emit, state2, nj) =>
      let newlyJoined2 := if nj then newlyJoined ++ [roomID] else newlyJoined
      let deltas2 :=
        match emit with
        | none => deltas
        | some (membership, pos) =>
          deltas ++ [{ membership := membership, membershipPos := pos,
                       stateEvents := StreamEventsToEvents (some device) stateStreamEvents,
                       roomID := roomID }]
      classifyRooms store device userID stateFilter rest state2 deltas2 newlyJoined2

/-- The joined-rooms pass of `GetStateDeltas`: append a join delta for every
currently-joined room, flagged newly joined when the classification pass marked
it so. -/
def addJoinedRoomDeltas (device : Device) (state : List (String × List StreamEvent))
    (newlyJoined : List String) :
    List String → List StateDelta → List StateDelta
  | [], deltas => deltas
  | roomID :: rest, deltas =>
    addJoinedRoomDeltas device state newlyJoined rest
      (deltas ++ [{ membership := GMSL.Join,
                    stateEvents := StreamEventsToEvents (some device)
                      ((alistGet state roomID).getD []),
                    roomID := roomID,
                    newlyJoined := newlyJoined.contains roomID }])

/-- `GetStateDeltas`: the incremental-sync delta engine. -/
def GetStateDeltas (store : Store) (device : Device) (r : Range) (userID : String)
    (stateFilter : StateFilter) :
    Except DBError (List StateDelta × List String) :=
  match store.selectRoomIDsWithAnyMembership userID with
  | .error .noRows => .ok ([], [])
  | .error err => .error err
  | .ok memberships =>
    let allRoomIDs := memberships.map Prod.fst
    let joinedRoomIDs := (memberships.filter fun m => m.2 == GMSL.Join).map Prod.fst
    match store.selectStateInRange r stateFilter allRoomIDs with
    | .error .noRows => .ok ([], [])
    | .error err => .error err
    | .ok (stateNeeded, eventMap) =>
      match fetchStateEvents store stateNeeded eventMap with
      | .error .noRows => .ok ([], [])
      | .error err => .error err
      | .ok state =>
        match absorbNoRowsPeeks (store.selectPeeksInRange userID device.id r) with
        | .error err => .error err
        | .ok peeks =>
          match addPeekDeltas store device stateFilter peeks state [] with
          | .error err => .error err
          | .ok (deltas1, state1) =>
            match classifyRooms store device userID stateFilter state1 state1 deltas1 [] with
            | .error err => .error err
            | .ok (deltas2, state2, newlyJoined) =>
              .ok (addJoinedRoomDeltas device state2 newlyJoined joinedRoomIDs deltas2,
                   joinedRoomIDs)

/-- The peek pass of `GetStateDeltasForFullStateSync`: for every non-deleted
peek record a peek delta with full current state in the delta map, skipping a
room whose current-state lookup reports no rows. -/
def addPeekDeltasFull (store : Store) (device : Device) (stateFilter : StateFilter) :
    List Peek → List (String × StateDelta) → Except DBError (List (String × StateDelta))
  | [], dmap => .ok dmap
  | peek :: rest, dmap =>
    if peek.deleted then addPeekDeltasFull store device stateFilter rest dmap
    else
      match currentStateStreamEventsForRoom store peek.roomID stateFilter with
      | .error .noRows => addPeekDeltasFull store device stateFilter rest dmap
      | .error err => .error err
      | .ok s =>
        addPeekDeltasFull store device stateFilter rest
          (alistInsert dmap peek.roomID
            { membership := GMSL.Peek,
              stateEvents := StreamEventsToEvents (some device) s,
              roomID := peek.roomID })

/-- The inner scan of the full-state classification pass: the first membership
event of the user decides; a non-join membership records a delta in the map,
a join records nothing, and either way the scan stops. -/
def scanRoomFull (device : Device) (userID : String) (roomID : String)
    (allEvents : List StreamEvent) :
    List StreamEvent → List (String × StateDelta) → List (String × StateDelta)
  | [], dmap => dmap
  | ev :: rest, dmap =>
    let mp := getMembershipFromEvent ev.event userID
    if mp.1 = "" then scanRoomFull device userID roomID allEvents rest dmap
    else if mp.1 ≠ GMSL.Join then
      alistInsert dmap roomID
        { membership := mp.1, membershipPos := ev.streamPosition,
          stateEvents := StreamEventsToEvents (some device) allEvents,
          roomID := roomID }
    else dmap

/-- The classification pass of `GetStateDeltasForFullStateSync` over the
entries of the assembled state map. -/
def classifyRoomsFull (device : Device) (userID : String) :
    List (String × List StreamEvent) → List (String × StateDelta) →
    List (String × StateDelta)
  | [], dmap => dmap
  | (roomID, stateStreamEvents) :: rest, dmap =>
    classifyRoomsFull device userID rest
      (scanRoomFull device userID roomID stateStreamEvents stateStreamEvents dmap)

/-- The joined-rooms pass of `GetStateDeltasForFullStateSync`: overwrite the
delta of every currently-joined room with a join delta carrying the full
current state, skipping a room whose current-state lookup reports no rows. -/
def addJoinedFull (store : Store) (device : Device) (stateFilter : StateFilter) :
    List String → List (String × StateDelta) → Except DBError (List (String × StateDelta))
  | [], dmap => .ok dmap
  | roomID :: rest, dmap =>
    match currentStateStreamEventsForRoom store roomID stateFilter with
    | .error .noRows => addJoinedFull store device stateFilter rest dmap
    | .error err => .error err
    | .ok s =>
      addJoinedFull store device stateFilter rest
        (alistInsert dmap roomID
          { membership := GMSL.Join,
            stateEvents := StreamEventsToEvents (some device) s,
            roomID := roomID })

/-- `GetStateDeltasForFullStateSync`: the full-state delta engine, accumulating
deltas in a map keyed by room ID and flattening it at the end. -/
def GetStateDeltasForFullStateSync (store : Store) (device : Device) (r : Range)
    (userID : String) (stateFilter : StateFilter) :
    Except DBError (List StateDelta × List String) :=
  match store.selectRoomIDsWithAnyMembership userID with
  | .error .noRows => .ok ([], [])
  | .error err => .error err
  | .ok memberships =>
    let allRoomIDs := memberships.map Prod.fst
    let joinedRoomIDs := (memberships.filter fun m => m.2 == GMSL.Join).map Prod.fst
    match absorbNoRowsPeeks (store.selectPeeksInRange userID device.id r) with
    | .error err => .error err
    | .ok peeks =>
      match addPeekDeltasFull store device stateFilter peeks [] with
      | .error err => .error err
      | .ok dmap1 =>
        match store.selectStateInRange r stateFilter allRoomIDs with
        | .error .noRows => .ok ([], [])
        | .error err => .error err
        | .ok (stateNeeded, eventMap) =>
          match fetchStateEvents store stateNeeded eventMap with
          | .error .noRows => .ok ([], [])
          | .error err => .error err
          | .ok state =>
            let dmap2 := classifyRoomsFull device userID state dmap1
            match addJoinedFull store device stateFilter joinedRoomIDs dmap2 with
            | .error err => .error err
            | .ok dmapFinal => .ok (dmapFinal.map Prod.snd, joinedRoomIDs)

/-! Concrete fixtures used by witnesses and counterexamples. -/

/-- A base store whose lookups are empty; witnesses override single fields. -/
def baseStore : Store where
  selectRoomIDsWithAnyMembership _ := .error .noRows
  selectStateInRange _ _ _ := .ok ([], [])
  fetchMissingStateEvents _ := .ok []
  selectPeeksInRange _ _ _ := .ok []
  selectCurrentState _ _ _ := .error .noRows
  selectEventIDsInRange _ _ _ _ _ _ := .ok []
  selectEvents _ _ _ := .ok []
  selectStreamToTopologicalPosition _ _ _ := .error .noRows
  selectMaxPositionInTopology _ := .error .noRows
  selectPositionInTopology _ := .error .noRows
  selectSendToDeviceMessages _ _ _ _ := .ok (0, [])

/-- A membership event: the user joins with previous membership leave. -/
def evJoinNew : Event :=
  { eventID := "$a", type := "m.room.member", stateKey := some "@u:x",
    sender := "@u:x", membership := "join", prevMembership := "leave" }

/-- A membership event: the user leaves with previous membership join. -/
def evLeave : Event :=
  { eventID := "$b", type := "m.room.member", stateKey := some "@u:x",
    sender := "@u:x", membership := "leave", prevMembership := "join" }

/-- A non-membership state event standing for current room state. -/
def evCreate : Event :=
  { eventID := "$c", type := "m.room.create", stateKey := some "",
    sender := "@u:x", membership := "", prevMembership := "" }

/-- The requesting device of the fixtures. -/
def dev1 : Device := { id := "DEV", userID := "@u:x", sessionID := 0 }

/-- The sync range of the fixtures. -/
def rg1 : Range := { fromPos := 0, toPos := 10 }

/-- The state filter of the fixtures. -/
def sf1 : StateFilter := .mk

/-- A store where the window state of room `!r` holds a fresh join of the user
followed by a leave of the user, and the user is currently joined. -/
def storeC1cx : Store := { baseStore with
  selectRoomIDsWithAnyMembership := fun _ => .ok [("!r", "join")]
  selectStateInRange := fun _ _ _ =>
    .ok ([("!r", ["$a", "$b"])],
         [("$a", { event := evJoinNew, streamPosition := 5 }),
          ("$b", { event := evLeave, streamPosition := 6 })])
  selectCurrentState := fun _ _ _ => .ok [evCreate] }

/-- A store where the window state of room `!r` holds only a fresh join of the
user, and the user is currently joined. -/
def storeC1w : Store := { baseStore with
  selectRoomIDsWithAnyMembership := fun _ => .ok [("!r", "join")]
  selectStateInRange := fun _ _ _ =>
    .ok ([("!r", ["$a"])], [("$a", { event := evJoinNew, streamPosition := 5 })])
  selectCurrentState := fun _ _ _ => .ok [evCreate] }

/-- A store where the user is currently joined to room `!r` and also holds a
non-deleted, non-new peek on the same room in the window. -/
def storeC2cx : Store := { baseStore with
  selectRoomIDsWithAnyMembership := fun _ => .ok [("!r", "join")]
  selectPeeksInRange := fun _ _ _ => .ok [{ roomID := "!r", new := false, deleted := false }] }

/-- A store where the user is currently joined to room `!r`, holds a peek on
the same room, and the current state of the room is available. -/
def storeC3w : Store := { baseStore with
  selectRoomIDsWithAnyMembership := fun _ => .ok [("!r", "join")]
  selectPeeksInRange := fun _ _ _ => .ok [{ roomID := "!r", new := false, deleted := false }]
  selectCurrentState := fun _ _ _ => .ok [evCreate] }

/-! Helper lemmas about association lists. -/

theorem alistGet_insert_self {α : Type} (l : List (String × α)) (k : String) (v : α) :
    alistGet (alistInsert l k v) k = some v := by
  induction l with
  | nil => simp [alistInsert, alistGet]
  | cons p rest ih =>
    obtain ⟨k2, v2⟩ := p
    by_cases h : k2 = k
    · simp [alistInsert, h, alistGet]
    · simp [alistInsert, h, alistGet, ih]

theorem alistGet_insert_ne {α : Type} (l : List (String × α)) (k k2 : String) (v : α)
    (h : k ≠ k2) : alistGet (alistInsert l k v) k2 = alistGet l k2 := by
  induction l with
  | nil => simp [alistInsert, alistGet, h]
  | cons p rest ih =>
    obtain ⟨k3, v3⟩ := p
    by_cases h3 : k3 = k
    · subst h3
      simp [alistInsert, alistGet, h]
    · simp [alistInsert, alistGet, h3, ih]

theorem mem_alistInsert {α : Type} (l : List (String × α)) (k : String) (v : α)
    (p : String × α) (h : p ∈ alistInsert l k v) : p ∈ l ∨ p = (k, v) := by
  induction l with
  | nil =>
    simp only [alistInsert, List.mem_singleton] at h
    exact Or.inr h
  | cons q rest ih =>
    obtain ⟨k3, v3⟩ := q
    simp only [alistInsert] at h
    by_cases h3 : k3 = k
    · rw [if_pos h3] at h
      rcases List.mem_cons.mp h with h | h
      · exact Or.inr h
      · exact Or.inl (List.mem_cons_of_mem _ h)
    · rw [if_neg h3] at h
      rcases List.mem_cons.mp h with h | h
      · exact Or.inl (h ▸ List.mem_cons_self _ _)
      · rcases ih h with h2 | h2
        · exact Or.inl (List.mem_cons_of_mem _ h2)
        · exact Or.inr h2

theorem mem_keys_alistInsert {α : Type} (l : List (String × α)) (k x : String) (v : α)
    (h : x ∈ (alistInsert l k v).map Prod.fst) : x ∈ l.map Prod.fst ∨ x = k := by
  rcases List.mem_map.mp h with ⟨p, hmem, hx⟩
  rcases mem_alistInsert l k v p hmem with h2 | h2
  · exact Or.inl (hx ▸ List.mem_map_of_mem Prod.fst h2)
  · subst h2
    exact Or.inr hx.symm

theorem keys_nodup_alistInsert {α : Type} (l : List (String × α)) (k : String) (v : α)
    (h : (l.map Prod.fst).Nodup) : ((alistInsert l k v).map Prod.fst).Nodup := by
  induction l with
  | nil => simp [alistInsert]
  | cons p rest ih =>
    obtain ⟨k3, v3⟩ := p
    simp only [List.map_cons, List.nodup_cons] at h
    simp only [alistInsert]
    by_cases h3 : k3 = k
    · rw [if_pos h3]
      simp only [List.map_cons, List.nodup_cons]
      exact ⟨h3 ▸ h.1, h.2⟩
    · rw [if_neg h3]
      simp only [List.map_cons, List.nodup_cons]
      refine ⟨fun hmem => ?_, ih h.2⟩
      rcases mem_keys_alistInsert rest k k3 v hmem with h2 | h2
      · exact h.1 h2
      · exact h3 h2

theorem alistGet_mem {α : Type} (l : List (String × α)) (k : String) (v : α)
    (h : alistGet l k = some v) : (k, v) ∈ l := by
  induction l with
  | nil => simp [alistGet] at h
  | cons p rest ih =>
    obtain ⟨k3, v3⟩ := p
    by_cases h3 : k3 = k
    · subst h3
      simp [alistGet] at h
      subst h
      exact List.mem_cons_self _ _
    · simp [alistGet, h3] at h
      exact List.mem_cons_of_mem _ (ih h)

/-! Theorems for the claims on the simpler accessors. -/

/-- C9: `Commit` and `Rollback` on a `DatabaseTransaction` whose underlying SQL
transaction handle is nil return nil, performing no operation. -/
theorem commit_rollback_nil_txn (d : DatabaseTransaction) (h : d.txn = none) :
    d.Commit = none ∧ d.Rollback = none := by
  constructor
  · show DatabaseTransaction.Commit d = none
    rw [DatabaseTransaction.Commit, h]
  · show DatabaseTransaction.Rollback d = none
    rw [DatabaseTransaction.Rollback, h]

/-- C9 witness: a session that never acquired a transaction releases cleanly. -/
theorem commit_rollback_nil_txn_witness :
    DatabaseTransaction.Commit { txn := none } = none ∧
    DatabaseTransaction.Rollback { txn := none } = none :=
  commit_rollback_nil_txn { txn := none } rfl

/-- C10: `GetBackwardTopologyPos` returns the zero topology token on an empty
event list, independently of the store, and otherwise looks up and decrements
the topology position of the first event. -/
theorem getBackwardTopologyPos_empty_and_decrement (store : Store)
    (events : List StreamEvent) :
    (events = [] →
      GetBackwardTopologyPos store events = .ok { depth := 0, pduPosition := 0 }) ∧
    (∀ e rest pos spos, events = e :: rest →
      store.selectPositionInTopology e.event.eventID = .ok (pos, spos) →
      GetBackwardTopologyPos store events =
        .ok (TopologyToken.decrement { depth := pos, pduPosition := spos })) := by
  constructor
  · intro h
    subst h
    rfl
  · intro e rest pos spos h hsel
    subst h
    simp [GetBackwardTopologyPos, hsel]

/-- C10 witness: the empty case at a store whose topology lookup would fail,
and the singleton case at a concrete position. -/
theorem getBackwardTopologyPos_witness :
    GetBackwardTopologyPos baseStore [] = .ok { depth := 0, pduPosition := 0 } ∧
    GetBackwardTopologyPos
        { baseStore with selectPositionInTopology := fun _ => .ok (7, 40) }
        [{ event := evCreate, streamPosition := 40 }] =
      .ok (TopologyToken.decrement { depth := 7, pduPosition := 40 }) :=
  ⟨(getBackwardTopologyPos_empty_and_decrement baseStore []).1 rfl,
   (getBackwardTopologyPos_empty_and_decrement
      { baseStore with selectPositionInTopology := fun _ => .ok (7, 40) }
      [{ event := evCreate, streamPosition := 40 }]).2
     { event := evCreate, streamPosition := 40 } [] 7 40 rfl rfl⟩

/-- C4: `StreamToTopologicalPosition` absorbs the no-rows case: backward gives
the token of depth zero carrying the stream cursor, forward gives the current
maximum topology position of the room; any other lookup error is surfaced
wrapped, and on success the found depth is paired with the requested stream
position. -/
theorem streamToTopologicalPosition_absorbs_noRows (store : Store) (roomID : String)
    (streamPos : StreamPosition) :
    (store.selectStreamToTopologicalPosition roomID streamPos true = .error .noRows →
      StreamToTopologicalPosition store roomID streamPos true =
        .ok { depth := 0, pduPosition := streamPos }) ∧
    (∀ d s, store.selectStreamToTopologicalPosition roomID streamPos false = .error .noRows →
      store.selectMaxPositionInTopology roomID = .ok (d, s) →
      StreamToTopologicalPosition store roomID streamPos false =
        .ok { depth := d, pduPosition := s }) ∧
    (∀ err, store.selectStreamToTopologicalPosition roomID streamPos false = .error .noRows →
      store.selectMaxPositionInTopology roomID = .error err →
      StreamToTopologicalPosition store roomID streamPos false =
        .error (.wrapped "d.Topology.SelectMaxPositionInTopology" err)) ∧
    (∀ b err, err ≠ DBError.noRows →
      store.selectStreamToTopologicalPosition roomID streamPos b = .error err →
      StreamToTopologicalPosition store roomID streamPos b =
        .error (.wrapped "d.Topology.SelectStreamToTopologicalPosition" err)) ∧
    (∀ b d, store.selectStreamToTopologicalPosition roomID streamPos b = .ok d →
      StreamToTopologicalPosition store roomID streamPos b =
        .ok { depth := d, pduPosition := streamPos }) := by
  refine ⟨?_, ?_, ?_, ?_, ?_⟩
  · intro h
    simp [StreamToTopologicalPosition, h]
  · intro d s h h2
    simp [StreamToTopologicalPosition, h, h2]
  · intro err h h2
    simp [StreamToTopologicalPosition, h, h2]
  · intro b err hne h
    cases err with
    | noRows => exact absurd rfl hne
    | storage m => simp [StreamToTopologicalPosition, h]
    | wrapped c e => simp [StreamToTopologicalPosition, h]
  · intro b d h
    simp [StreamToTopologicalPosition, h]

/-- C4 witness: at a store with no rows and maximum topology position
`(7, 99)`, the call with stream position 1000 going forward returns `(7, 99)`
and going backward returns `(0, 1000)`. -/
theorem streamToTopologicalPosition_witness :
    StreamToTopologicalPosition
        { baseStore with selectMaxPositionInTopology := fun _ => .ok (7, 99) }
        "!r" 1000 false = .ok { depth := 7, pduPosition := 99 } ∧
    StreamToTopologicalPosition
        { baseStore with selectMaxPositionInTopology := fun _ => .ok (7, 99) }
        "!r" 1000 true = .ok { depth := 0, pduPosition := 1000 } :=
  ⟨(streamToTopologicalPosition_absorbs_noRows
      { baseStore with selectMaxPositionInTopology := fun _ => .ok (7, 99) }
      "!r" 1000).2.1 7 99 rfl rfl,
   (streamToTopologicalPosition_absorbs_noRows
      { baseStore with selectMaxPositionInTopology := fun _ => .ok (7, 99) }
      "!r" 1000).1 rfl⟩

/-- C5: `GetEventsInTopologicalRange` issues the ID range query with bounds
`(to.depth, from.depth, from.pduPosition)` when backward and
`(from.depth, to.depth)` with the max-stream bound unused when forward, with
ascending the negation of backward and the limit of the filter, and
materialises the returned IDs through the event store with the filter
reapplied. -/
theorem getEventsInTopologicalRange_query_shape (store : Store)
    (fromTok toTok : TopologyToken) (roomID : String) (filter : RoomEventFilter) :
    GetEventsInTopologicalRange store fromTok toTok roomID filter true =
      (store.selectEventIDsInRange roomID toTok.depth fromTok.depth fromTok.pduPosition
        filter.limit false).bind
        (fun eIDs => store.selectEvents eIDs (some filter) true) ∧
    GetEventsInTopologicalRange store fromTok toTok roomID filter false =
      (store.selectEventIDsInRange roomID fromTok.depth toTok.depth 0
        filter.limit true).bind
        (fun eIDs => store.selectEvents eIDs (some filter) true) := by
  constructor
  · cases h : store.selectEventIDsInRange roomID toTok.depth fromTok.depth
      fromTok.pduPosition filter.limit false with
    | error err => simp [GetEventsInTopologicalRange, h, Except.bind]
    | ok eIDs => simp [GetEventsInTopologicalRange, h, Except.bind]
  · cases h : store.selectEventIDsInRange roomID fromTok.depth toTok.depth 0
      filter.limit true with
    | error err => simp [GetEventsInTopologicalRange, h, Except.bind]
    | ok eIDs => simp [GetEventsInTopologicalRange, h, Except.bind]

/-- C6: `SendToDeviceUpdatesForSync` returns the upper cursor with no events on
an empty window, the last delivered position with the events otherwise, and on
a store error the lower cursor together with the wrapped error. -/
theorem sendToDeviceUpdatesForSync_cursor (store : Store) (userID deviceID : String)
    (fromPos toPos : StreamPosition) :
    (∀ lastPos,
      store.selectSendToDeviceMessages userID deviceID fromPos toPos = .ok (lastPos, []) →
      SendToDeviceUpdatesForSync store userID deviceID fromPos toPos = (toPos, [], none)) ∧
    (∀ lastPos events, events ≠ [] →
      store.selectSendToDeviceMessages userID deviceID fromPos toPos = .ok (lastPos, events) →
      SendToDeviceUpdatesForSync store userID deviceID fromPos toPos =
        (lastPos, events, none)) ∧
    (∀ err,
      store.selectSendToDeviceMessages userID deviceID fromPos toPos = .error err →
      SendToDeviceUpdatesForSync store userID deviceID fromPos toPos =
        (fromPos, [], some (.wrapped "d.SendToDevice.SelectSendToDeviceMessages" err))) := by
  refine ⟨?_, ?_, ?_⟩
  · intro lastPos h
    simp [SendToDeviceUpdatesForSync, h]
  · intro lastPos events hne h
    simp [SendToDeviceUpdatesForSync, h, hne]
  · intro err h
    simp [SendToDeviceUpdatesForSync, h]

/-- C6 witness: an empty window advances the cursor to the upper bound; a
non-empty window returns the last delivered position; an error returns the
lower bound. -/
theorem sendToDeviceUpdatesForSync_witness :
    SendToDeviceUpdatesForSync baseStore "@u:x" "DEV" 3 9 = (9, [], none) ∧
    SendToDeviceUpdatesForSync
        { baseStore with
          selectSendToDeviceMessages := fun _ _ _ _ => .ok (7, [{ content := "m" }]) }
        "@u:x" "DEV" 3 9 = (7, [{ content := "m" }], none) ∧
    SendToDeviceUpdatesForSync
        { baseStore with
          selectSendToDeviceMessages := fun _ _ _ _ => .error (.storage "boom") }
        "@u:x" "DEV" 3 9 =
      (3, [], some (.wrapped "d.SendToDevice.SelectSendToDeviceMessages"
        (.storage "boom"))) :=
  ⟨(sendToDeviceUpdatesForSync_cursor baseStore "@u:x" "DEV" 3 9).1 0 rfl,
   (sendToDeviceUpdatesForSync_cursor
      { baseStore with
        selectSendToDeviceMessages := fun _ _ _ _ => .ok (7, [{ content := "m" }]) }
      "@u:x" "DEV" 3 9).2.1 7 [{ content := "m" }] (by simp) rfl,
   (sendToDeviceUpdatesForSync_cursor
      { baseStore with
        selectSendToDeviceMessages := fun _ _ _ _ => .error (.storage "boom") }
      "@u:x" "DEV" 3 9).2.2 (.storage "boom") rfl⟩

/-- C8: `Events` returns only events found in the store, silently omitting
missing IDs with no error, and attaches no transaction ID because no device
context is supplied. -/
theorem events_found_only_no_transaction_id (store : Store)
    (db : List (String × StreamEvent)) (eventIDs : List String)
    (hsel : store.selectEvents eventIDs none false =
      .ok (eventIDs.filterMap fun id => alistGet db id)) :
    Events store eventIDs =
      .ok ((eventIDs.filterMap fun id => alistGet db id).map
        fun se => { event := se.event }) ∧
    ∀ out ∈ ((eventIDs.filterMap fun id => alistGet db id).map
        fun se => ({ event := se.event } : OutputEvent)),
      out.unsignedTransactionID = none ∧
      ∃ id ∈ eventIDs, ∃ se, alistGet db id = some se ∧ out.event = se.event := by
  constructor
  · simp [Events, hsel, StreamEventsToEvents]
  · intro out hout
    rcases List.mem_map.mp hout with ⟨se, hse, heq⟩
    rcases List.mem_filterMap.mp hse with ⟨id, hid, hget⟩
    subst heq
    exact ⟨rfl, id, hid, se, hget, rfl⟩

/-- C8 witness: of two requested IDs only the one present in the store comes
back, and it carries no transaction ID even though the stored stream event has
one recorded. -/
theorem events_witness :
    Events
        { baseStore with
          selectEvents := fun ids _ _ =>
            .ok (ids.filterMap fun id =>
              alistGet [("$a", { event := evJoinNew, streamPosition := 5,
                                 transactionID := some { sessionID := 0,
                                                         transactionID := "t1" } })] id) }
        ["$a", "$missing"] = .ok [{ event := evJoinNew }] ∧
    ∀ out ∈ [({ event := evJoinNew } : OutputEvent)],
      out.unsignedTransactionID = none := by
  constructor
  · exact (events_found_only_no_transaction_id
      { baseStore with
        selectEvents := fun ids _ _ =>
          .ok (ids.filterMap fun id =>
            alistGet [("$a", { event := evJoinNew, streamPosition := 5,
                               transactionID := some { sessionID := 0,
                                                       transactionID := "t1" } })] id) }
      [("$a", { event := evJoinNew, streamPosition := 5,
                transactionID := some { sessionID := 0, transactionID := "t1" } })]
      ["$a", "$missing"] rfl).1
  · intro out hout
    rw [List.mem_singleton.mp hout]

/-! Lemmas on the passes of the incremental delta engine. -/

theorem scanStateEvents_no_membership (store : Store) (userID : String) (sf : StateFilter)
    (roomID : String) :
    ∀ (evs : List StreamEvent) (state : List (String × List StreamEvent)) (nj : Bool),
      (∀ ev ∈ evs, (getMembershipFromEvent ev.event userID).1 = "") →
      scanStateEvents store userID sf roomID evs state nj = .ok (none, state, nj) := by
  intro evs
  induction evs with
  | nil => intro state nj _; rfl
  | cons ev rest ih =>
    intro state nj h
    have h1 := h ev (List.mem_cons_self _ _)
    simp only [scanStateEvents, h1, if_pos]
    exact ih state nj fun e he => h e (List.mem_cons_of_mem _ he)

theorem scanStateEvents_single_new_join (store : Store) (userID : String)
    (sf : StateFilter) (roomID : String) (evJ : StreamEvent) (prevM : String)
    (cs : List Event)
    (hJ : getMembershipFromEvent evJ.event userID = (GMSL.Join, prevM))
    (hprev : prevM ≠ GMSL.Join)
    (hcs : store.selectCurrentState roomID sf [] = .ok cs) :
    ∀ (l1 l2 : List StreamEvent),
      (∀ ev ∈ l1, (getMembershipFromEvent ev.event userID).1 = "") →
      (∀ ev ∈ l2, (getMembershipFromEvent ev.event userID).1 = "") →
      ∀ (state : List (String × List StreamEvent)) (nj : Bool),
        scanStateEvents store userID sf roomID (l1 ++ evJ :: l2) state nj =
          .ok (none,
               alistInsert state roomID (cs.map fun ev => { event := ev, streamPosition := 0 }),
               true) := by
  intro l1
  induction l1 with
  | nil =>
    intro l2 _ hl2 state nj
    have hne : (GMSL.Join, prevM).1 ≠ "" := by
      simp [GMSL.Join]
    simp only [List.nil_append, scanStateEvents, hJ]
    rw [if_neg hne]
    rw [if_pos (show True ∧ prevM ≠ GMSL.Join from ⟨trivial, hprev⟩)]
    simp only [currentStateStreamEventsForRoom, hcs]
    exact scanStateEvents_no_membership store userID sf roomID l2 _ true hl2
  | cons ev rest ih =>
    intro l2 hl1 hl2 state nj
    have h1 := hl1 ev (List.mem_cons_self _ _)
    simp only [List.cons_append, scanStateEvents, h1, if_pos]
    exact ih l2 (fun e he => hl1 e (List.mem_cons_of_mem _ he)) hl2 state nj

theorem scanStateEvents_get_other (store : Store) (userID : String) (sf : StateFilter)
    (roomID : String) (k : String) (hk : roomID ≠ k) :
    ∀ (evs : List StreamEvent) (state : List (String × List StreamEvent)) (nj : Bool)
      (emit : Option (String × StreamPosition)) (state2 : List (String × List StreamEvent))
      (nj2 : Bool),
      scanStateEvents store userID sf roomID evs state nj = .ok (emit, state2, nj2) →
      alistGet state2 k = alistGet state k := by
  intro evs
  induction evs with
  | nil =>
    intro state nj emit state2 nj2 h
    simp only [scanStateEvents, Except.ok.injEq, Prod.mk.injEq] at h
    rw [← h.2.1]
  | cons ev rest ih =>
    intro state nj emit state2 nj2 h
    simp only [scanStateEvents] at h
    by_cases c1 : (getMembershipFromEvent ev.event userID).1 = ""
    · rw [if_pos c1] at h
      exact ih state nj emit state2 nj2 h
    · rw [if_neg c1] at h
      by_cases c2 : (getMembershipFromEvent ev.event userID).1 = GMSL.Join ∧
          (getMembershipFromEvent ev.event userID).2 ≠ (getMembershipFromEvent ev.event userID).1
      · rw [if_pos c2] at h
        cases hcs : currentStateStreamEventsForRoom store roomID sf with
        | error err =>
          rw [hcs] at h
          cases err with
          | noRows => exact ih state nj emit state2 nj2 h
          | storage m => cases h
          | wrapped c e => cases h
        | ok s =>
          rw [hcs] at h
          rw [ih _ _ emit state2 nj2 h]
          exact alistGet_insert_ne state roomID k _ hk
      · rw [if_neg c2] at h
        simp only [Except.ok.injEq, Prod.mk.injEq] at h
        rw [← h.2.1]

theorem classifyRooms_untouched (store : Store) (device : Device) (userID : String)
    (sf : StateFilter) (ours : String) :
    ∀ (entries state : List (String × List StreamEvent)) (deltas : List StateDelta)
      (nj : List String) (deltas2 : List StateDelta)
      (state2 : List (String × List StreamEvent)) (nj2 : List String),
      classifyRooms store device userID sf entries state deltas nj = .ok (deltas2, state2, nj2) →
      ours ∉ entries.map Prod.fst →
      deltas2.filter (fun d => d.roomID == ours) = deltas.filter (fun d => d.roomID == ours) ∧
      alistGet state2 ours = alistGet state ours ∧
      (ours ∈ nj2 ↔ ours ∈ nj) := by
  intro entries
  induction entries with
  | nil =>
    intro state deltas nj deltas2 state2 nj2 h _
    simp only [classifyRooms, Except.ok.injEq, Prod.mk.injEq] at h
    rw [← h.1, ← h.2.1, ← h.2.2]
    exact ⟨rfl, rfl, Iff.rfl⟩
  | cons e rest ih =>
    obtain ⟨roomID, evs⟩ := e
    intro state deltas nj deltas2 state2 nj2 h hnm
    have hne : roomID ≠ ours := by
      intro hx
      exact hnm (by simp [hx])
    have hnm2 : ours ∉ rest.map Prod.fst := fun hx => hnm (List.mem_cons_of_mem _ hx)
    simp only [classifyRooms] at h
    cases hs : scanStateEvents store userID sf roomID evs state false with
    | error err =>
      rw [hs] at h
      cases h
    | ok res =>
      obtain ⟨emit, st2, b⟩ := res
      rw [hs] at h
      have hget := scanStateEvents_get_other store userID sf roomID ours hne evs state
        false emit st2 b hs
      rcases ih st2 _ _ deltas2 state2 nj2 h hnm2 with ⟨hd, hstg, hnj⟩
      have hbeq : (roomID == ours) = false := beq_eq_false_iff_ne.mpr hne
      refine ⟨?_, by rw [hstg, hget], ?_⟩
      · rw [hd]
        cases emit with
        | none => rfl
        | some mp =>
          obtain ⟨mem, pos⟩ := mp
          simp [List.filter_append, List.filter, hbeq]
      · rw [hnj]
        cases b with
        | false => rfl
        | true => simp [List.mem_append, List.mem_singleton, Ne.symm hne]

theorem classifyRooms_newly_joined (store : Store) (device : Device) (userID : String)
    (sf : StateFilter) (ours : String) (evsOurs s0 : List StreamEvent)
    (hscan : ∀ st, scanStateEvents store userID sf ours evsOurs st false =
      .ok (none, alistInsert st ours s0, true)) :
    ∀ (entries state : List (String × List StreamEvent)) (deltas : List StateDelta)
      (nj : List String) (deltas2 : List StateDelta)
      (state2 : List (String × List StreamEvent)) (nj2 : List String),
      classifyRooms store device userID sf entries state deltas nj = .ok (deltas2, state2, nj2) →
      (entries.map Prod.fst).Nodup →
      (ours, evsOurs) ∈ entries →
      deltas2.filter (fun d => d.roomID == ours) = deltas.filter (fun d => d.roomID == ours) ∧
      alistGet state2 ours = some s0 ∧
      ours ∈ nj2 := by
  intro entries
  induction entries with
  | nil =>
    intro state deltas nj deltas2 state2 nj2 _ _ hmem
    cases hmem
  | cons e rest ih =>
    obtain ⟨roomID, evs⟩ := e
    intro state deltas nj deltas2 state2 nj2 h hnd hmem
    simp only [List.map_cons, List.nodup_cons] at hnd
    by_cases hk : roomID = ours
    · subst hk
      have hevs : evs = evsOurs := by
        rcases List.mem_cons.mp hmem with heq | hmem2
        · exact (Prod.mk.injEq .. ▸ heq.symm).2
        · exact absurd (List.mem_map_of_mem Prod.fst hmem2) hnd.1
      subst hevs
      simp only [classifyRooms, hscan state] at h
      rcases classifyRooms_untouched store device userID sf roomID rest
          (alistInsert state roomID s0) deltas (nj ++ [roomID]) deltas2 state2 nj2 h hnd.1
        with ⟨hd, hstg, hnj⟩
      refine ⟨hd, ?_, ?_⟩
      · rw [hstg]
        exact alistGet_insert_self state roomID s0
      · exact hnj.mpr (by simp)
    · have hmem2 : (ours, evsOurs) ∈ rest := by
        rcases List.mem_cons.mp hmem with heq | hmem2
        · exact absurd (congrArg Prod.fst heq).symm hk
        · exact hmem2
      simp only [classifyRooms] at h
      cases hs : scanStateEvents store userID sf roomID evs state false with
      | error err =>
        rw [hs] at h
        cases h
      | ok res =>
        obtain ⟨emit, st2, b⟩ := res
        rw [hs] at h
        rcases ih st2 _ _ deltas2 state2 nj2 h hnd.2 hmem2 with ⟨hd, hstg, hnj⟩
        have hbeq : (roomID == ours) = false := beq_eq_false_iff_ne.mpr hk
        refine ⟨?_, hstg, hnj⟩
        rw [hd]
        cases emit with
        | none => rfl
        | some mp =>
          obtain ⟨mem, pos⟩ := mp
          simp [List.filter_append, List.filter, hbeq]

theorem addPeekDeltas_untouched (store : Store) (device : Device) (sf : StateFilter)
    (ours : String) :
    ∀ (peeks : List Peek) (state : List (String × List StreamEvent))
      (deltas deltas2 : List StateDelta) (state2 : List (String × List StreamEvent)),
      addPeekDeltas store device sf peeks state deltas = .ok (deltas2, state2) →
      (∀ pk ∈ peeks, pk.roomID ≠ ours) →
      deltas2.filter (fun d => d.roomID == ours) = deltas.filter (fun d => d.roomID == ours) ∧
      alistGet state2 ours = alistGet state ours := by
  intro peeks
  induction peeks with
  | nil =>
    intro state deltas deltas2 state2 h _
    simp only [addPeekDeltas, Except.ok.injEq, Prod.mk.injEq] at h
    rw [← h.1, ← h.2]
    exact ⟨rfl, rfl⟩
  | cons pk rest ih =>
    intro state deltas deltas2 state2 h hpk
    have hne : pk.roomID ≠ ours := hpk pk (List.mem_cons_self _ _)
    have hbeq : (pk.roomID == ours) = false := beq_eq_false_iff_ne.mpr hne
    have hpk2 : ∀ p ∈ rest, p.roomID ≠ ours := fun p hp => hpk p (List.mem_cons_of_mem _ hp)
    simp only [addPeekDeltas] at h
    by_cases hnew : pk.new = true
    · rw [if_pos hnew] at h
      cases hcs : currentStateStreamEventsForRoom store pk.roomID sf with
      | error err =>
        rw [hcs] at h
        cases err with
        | noRows => exact ih state deltas deltas2 state2 h hpk2
        | storage m => cases h
        | wrapped c e => cases h
      | ok s =>
        rw [hcs] at h
        rcases ih _ _ deltas2 state2 h hpk2 with ⟨hd, hg⟩
        constructor
        · rw [hd]
          by_cases hdel : pk.deleted = true
          · rw [if_pos hdel]
          · rw [if_neg hdel]
            simp [List.filter_append, List.filter_cons, hbeq]
        · rw [hg]
          exact alistGet_insert_ne state pk.roomID ours _ hne
    · rw [if_neg hnew] at h
      rcases ih _ _ deltas2 state2 h hpk2 with ⟨hd, hg⟩
      constructor
      · rw [hd]
        by_cases hdel : pk.deleted = true
        · rw [if_pos hdel]
        · rw [if_neg hdel]
          simp [List.filter_append, List.filter_cons, hbeq]
      · exact hg

theorem addPeekDeltas_keys_nodup (store : Store) (device : Device) (sf : StateFilter) :
    ∀ (peeks : List Peek) (state : List (String × List StreamEvent))
      (deltas deltas2 : List StateDelta) (state2 : List (String × List StreamEvent)),
      addPeekDeltas store device sf peeks state deltas = .ok (deltas2, state2) →
      (state.map Prod.fst).Nodup → (state2.map Prod.fst).Nodup := by
  intro peeks
  induction peeks with
  | nil =>
    intro state deltas deltas2 state2 h hnd
    simp only [addPeekDeltas, Except.ok.injEq, Prod.mk.injEq] at h
    rw [← h.2]
    exact hnd
  | cons pk rest ih =>
    intro state deltas deltas2 state2 h hnd
    simp only [addPeekDeltas] at h
    by_cases hnew : pk.new = true
    · rw [if_pos hnew] at h
      cases hcs : currentStateStreamEventsForRoom store pk.roomID sf with
      | error err =>
        rw [hcs] at h
        cases err with
        | noRows => exact ih state deltas deltas2 state2 h hnd
        | storage m => cases h
        | wrapped c e => cases h
      | ok s =>
        rw [hcs] at h
        exact ih _ _ deltas2 state2 h (keys_nodup_alistInsert state pk.roomID s hnd)
    · rw [if_neg hnew] at h
      exact ih _ _ deltas2 state2 h hnd

theorem addJoinedRoomDeltas_eq_append (device : Device)
    (state : List (String × List StreamEvent)) (njList : List String) :
    ∀ (rooms : List String) (deltas : List StateDelta),
      addJoinedRoomDeltas device state njList rooms deltas =
        deltas ++ rooms.map (fun roomID =>
          { membership := GMSL.Join,
            stateEvents := StreamEventsToEvents (some device) ((alistGet state roomID).getD []),
            roomID := roomID,
            newlyJoined := njList.contains roomID }) := by
  intro rooms
  induction rooms with
  | nil =>
    intro deltas
    simp [addJoinedRoomDeltas]
  | cons r rest ih =>
    intro deltas
    simp only [addJoinedRoomDeltas, ih, List.map_cons, List.append_assoc,
      List.singleton_append]

theorem filter_join_deltas_not_mem (device : Device)
    (state : List (String × List StreamEvent)) (njList : List String) (ours : String) :
    ∀ rooms : List String, ours ∉ rooms →
      (rooms.map fun roomID =>
        ({ membership := GMSL.Join,
           stateEvents := StreamEventsToEvents (some device) ((alistGet state roomID).getD []),
           roomID := roomID,
           newlyJoined := njList.contains roomID } : StateDelta)).filter
        (fun d => d.roomID == ours) = [] := by
  intro rooms
  induction rooms with
  | nil =>
    intro _
    rfl
  | cons r rest ih =>
    intro h
    have hne : r ≠ ours := fun hx => h (by simp [hx])
    have hbeq : (r == ours) = false := beq_eq_false_iff_ne.mpr hne
    have h2 : ours ∉ rest := fun hx => h (List.mem_cons_of_mem _ hx)
    rw [List.map_cons, List.filter_cons, if_neg (by simp [hbeq])]
    exact ih h2

theorem filter_join_deltas_mem (device : Device)
    (state : List (String × List StreamEvent)) (njList : List String) (ours : String) :
    ∀ rooms : List String, rooms.Nodup → ours ∈ rooms →
      (rooms.map fun roomID =>
        ({ membership := GMSL.Join,
           stateEvents := StreamEventsToEvents (some device) ((alistGet state roomID).getD []),
           roomID := roomID,
           newlyJoined := njList.contains roomID } : StateDelta)).filter
        (fun d => d.roomID == ours) =
      [{ membership := GMSL.Join,
         stateEvents := StreamEventsToEvents (some device) ((alistGet state ours).getD []),
         roomID := ours,
         newlyJoined := njList.contains ours }] := by
  intro rooms
  induction rooms with
  | nil =>
    intro _ h
    cases h
  | cons r rest ih =>
    intro hnd hmem
    simp only [List.nodup_cons] at hnd
    by_cases hr : r = ours
    · subst hr
      rw [List.map_cons, List.filter_cons, if_pos (by simp),
        filter_join_deltas_not_mem device state njList r rest hnd.1]
    · have hmem2 : ours ∈ rest := by
        rcases List.mem_cons.mp hmem with h | h
        · exact absurd h.symm hr
        · exact h
      have hbeq : (r == ours) = false := beq_eq_false_iff_ne.mpr hr
      rw [List.map_cons, List.filter_cons, if_neg (by simp [hbeq])]
      exact ih hnd.2 hmem2

theorem mem_joined_of_mem (ms : List (String × String)) (ours : String)
    (h : (ours, GMSL.Join) ∈ ms) :
    ours ∈ (ms.filter fun m => m.2 == GMSL.Join).map Prod.fst :=
  List.mem_map_of_mem Prod.fst (List.mem_filter.mpr ⟨h, by simp⟩)

theorem joined_nodup (ms : List (String × String)) (h : (ms.map Prod.fst).Nodup) :
    ((ms.filter fun m => m.2 == GMSL.Join).map Prod.fst).Nodup :=
  List.Nodup.sublist (List.Sublist.map Prod.fst (List.filter_sublist ms)) h

/-- C1 (amended): in incremental sync (`GetStateDeltas`), for every room whose
in-window state events contain exactly one membership event of the requesting
user, a join with a previous membership different from join, where the user is
currently joined to the room and holds no peek on it, the engine marks the
room newly joined, replaces its state with the full current state at stream
position zero, emits no delta for it in the classification pass, and the
joined-rooms pass emits exactly one delta for the room with membership join,
newly-joined true and the full current state. -/
theorem getStateDeltas_newly_joined_amended
    (store : Store) (device : Device) (r : Range) (userID : String) (sf : StateFilter)
    (ms : List (String × String)) (ours : String)
    (sn : List (String × List String)) (em : List (String × StreamEvent))
    (st : List (String × List StreamEvent)) (peeks : List Peek)
    (evs l1 l2 : List StreamEvent) (evJ : StreamEvent) (prevM : String)
    (cs : List Event) (deltas : List StateDelta) (joined : List String)
    (hm : store.selectRoomIDsWithAnyMembership userID = .ok ms)
    (hmnd : (ms.map Prod.fst).Nodup)
    (hjoin : (ours, GMSL.Join) ∈ ms)
    (hsir : store.selectStateInRange r sf (ms.map Prod.fst) = .ok (sn, em))
    (hfse : fetchStateEvents store sn em = .ok st)
    (hstnd : (st.map Prod.fst).Nodup)
    (hget : alistGet st ours = some evs)
    (hpeeks : absorbNoRowsPeeks (store.selectPeeksInRange userID device.id r) = .ok peeks)
    (hpk : ∀ pk ∈ peeks, pk.roomID ≠ ours)
    (hsplit : evs = l1 ++ evJ :: l2)
    (hl1 : ∀ ev ∈ l1, (getMembershipFromEvent ev.event userID).1 = "")
    (hl2 : ∀ ev ∈ l2, (getMembershipFromEvent ev.event userID).1 = "")
    (hJ : getMembershipFromEvent evJ.event userID = (GMSL.Join, prevM))
    (hprev : prevM ≠ GMSL.Join)
    (hcs : store.selectCurrentState ours sf [] = .ok cs)
    (hok : GetStateDeltas store device r userID sf = .ok (deltas, joined)) :
    deltas.filter (fun d => d.roomID == ours) =
      [{ membership := GMSL.Join,
         stateEvents := StreamEventsToEvents (some device)
           (cs.map fun ev => { event := ev, streamPosition := 0 }),
         roomID := ours, newlyJoined := true }] ∧
    ours ∈ joined := by
  subst hsplit
  simp only [GetStateDeltas, hm, hsir, hfse, hpeeks] at hok
  cases hP : addPeekDeltas store device sf peeks st [] with
  | error err =>
    simp only [hP] at hok
    cases hok
  | ok p1 =>
    obtain ⟨deltas1, state1⟩ := p1
    simp only [hP] at hok
    cases hC : classifyRooms store device userID sf state1 state1 deltas1 [] with
    | error err =>
      simp only [hC] at hok
      cases hok
    | ok p2 =>
      obtain ⟨deltas2, state2, njL⟩ := p2
      simp only [hC, Except.ok.injEq, Prod.mk.injEq] at hok
      obtain ⟨hok1, hok2⟩ := hok
      rcases addPeekDeltas_untouched store device sf ours peeks st [] deltas1 state1 hP hpk
        with ⟨hd1, hg1⟩
      have hnd1 := addPeekDeltas_keys_nodup store device sf peeks st [] deltas1 state1 hP hstnd
      have hget1 : alistGet state1 ours = some (l1 ++ evJ :: l2) := hg1.trans hget
      have hmem1 : (ours, l1 ++ evJ :: l2) ∈ state1 := alistGet_mem state1 ours _ hget1
      have hscan : ∀ st2, scanStateEvents store userID sf ours (l1 ++ evJ :: l2) st2 false =
          .ok (none,
               alistInsert st2 ours (cs.map fun ev => { event := ev, streamPosition := 0 }),
               true) :=
        fun st2 => scanStateEvents_single_new_join store userID sf ours evJ prevM cs
          hJ hprev hcs l1 l2 hl1 hl2 st2 false
      rcases classifyRooms_newly_joined store device userID sf ours (l1 ++ evJ :: l2)
          (cs.map fun ev => { event := ev, streamPosition := 0 }) hscan state1 state1
          deltas1 [] deltas2 state2 njL hC hnd1 hmem1
        with ⟨hd2, hg2, hnj2⟩
      have hJmem := mem_joined_of_mem ms ours hjoin
      have hJnd := joined_nodup ms hmnd
      have hd1e : deltas1.filter (fun d => d.roomID == ours) = [] := hd1
      have hcont : njL.contains ours = true := List.elem_eq_true_of_mem hnj2
      constructor
      · rw [← hok1, addJoinedRoomDeltas_eq_append, List.filter_append, hd2, hd1e,
          filter_join_deltas_mem device state2 njL ours _ hJnd hJmem, hg2, hcont]
        simp
      · rw [← hok2]
        exact hJmem

/-- C1 counterexample: at a store where the first membership event of the user
in room `!r` is a fresh join and a later leave event of the user follows in the
same window, the classification pass emits a leave delta and the joined-rooms
pass a second join delta, so the room is not handled by the joined pass alone. -/
theorem getStateDeltas_newly_joined_counterexample :
    (GetStateDeltas storeC1cx dev1 rg1 "@u:x" sf1).map
        (fun p => p.1.map fun d => (d.roomID, d.membership, d.newlyJoined)) =
      .ok [("!r", GMSL.Leave, false), ("!r", GMSL.Join, true)] := rfl

/-- C1 witness: the amended theorem applied to a concrete store where room `!r`
has a single fresh-join membership event in the window. -/
theorem getStateDeltas_newly_joined_amended_witness :
    ([({ membership := GMSL.Join, stateEvents := [{ event := evCreate }],
         roomID := "!r", newlyJoined := true } : StateDelta)].filter
       (fun d => d.roomID == "!r") =
      [{ membership := GMSL.Join,
         stateEvents := StreamEventsToEvents (some dev1)
           ([evCreate].map fun ev => { event := ev, streamPosition := 0 }),
         roomID := "!r", newlyJoined := true }]) ∧ "!r" ∈ ["!r"] :=
  getStateDeltas_newly_joined_amended storeC1w dev1 rg1 "@u:x" sf1
    [("!r", "join")] "!r" [("!r", ["$a"])]
    [("$a", { event := evJoinNew, streamPosition := 5 })]
    [("!r", [{ event := evJoinNew, streamPosition := 5 }])] []
    [{ event := evJoinNew, streamPosition := 5 }] [] []
    { event := evJoinNew, streamPosition := 5 } "leave" [evCreate]
    [{ membership := GMSL.Join, stateEvents := [{ event := evCreate }],
       roomID := "!r", newlyJoined := true }] ["!r"]
    rfl (by decide) (by decide) rfl rfl (by decide) rfl rfl
    (by intro pk hpk2; cases hpk2) rfl
    (by intro ev hev; cases hev) (by intro ev hev; cases hev)
    rfl (by decide) rfl rfl

/-- C2: at a store where the user is currently joined to `!r` and also holds a
non-deleted peek on `!r` in the window, `GetStateDeltas` returns two deltas for
the same room, one peek and one join: nothing overwrites the peek delta in the
incremental path, although the comment above the peek pass says peeks get
overwritten by joins. -/
theorem getStateDeltas_peek_join_duplicate :
    (GetStateDeltas storeC2cx dev1 rg1 "@u:x" sf1).map
        (fun p => p.1.map fun d => (d.roomID, d.membership)) =
      .ok [("!r", GMSL.Peek), ("!r", GMSL.Join)] := rfl

/-! Lemmas on the passes of the full-state delta engine. -/

theorem roomInv_alistInsert (dmap : List (String × StateDelta)) (k : String) (d : StateDelta)
    (hinv : ∀ p ∈ dmap, (p.2 : StateDelta).roomID = p.1) (hd : d.roomID = k) :
    ∀ p ∈ alistInsert dmap k d, (p.2 : StateDelta).roomID = p.1 := by
  intro p hp
  rcases mem_alistInsert dmap k d p hp with h | h
  · exact hinv p h
  · rw [h]
    exact hd

theorem addPeekDeltasFull_inv (store : Store) (device : Device) (sf : StateFilter) :
    ∀ (peeks : List Peek) (dmap dmap2 : List (String × StateDelta)),
      addPeekDeltasFull store device sf peeks dmap = .ok dmap2 →
      (dmap.map Prod.fst).Nodup → (∀ p ∈ dmap, (p.2 : StateDelta).roomID = p.1) →
      (dmap2.map Prod.fst).Nodup ∧ ∀ p ∈ dmap2, (p.2 : StateDelta).roomID = p.1 := by
  intro peeks
  induction peeks with
  | nil =>
    intro dmap dmap2 h hnd hinv
    simp only [addPeekDeltasFull, Except.ok.injEq] at h
    rw [← h]
    exact ⟨hnd, hinv⟩
  | cons pk rest ih =>
    intro dmap dmap2 h hnd hinv
    simp only [addPeekDeltasFull] at h
    by_cases hdel : pk.deleted = true
    · rw [if_pos hdel] at h
      exact ih dmap dmap2 h hnd hinv
    · rw [if_neg hdel] at h
      cases hcs : currentStateStreamEventsForRoom store pk.roomID sf with
      | error err =>
        rw [hcs] at h
        cases err with
        | noRows => exact ih dmap dmap2 h hnd hinv
        | storage m => cases h
        | wrapped c e => cases h
      | ok s =>
        rw [hcs] at h
        exact ih _ dmap2 h (keys_nodup_alistInsert dmap pk.roomID _ hnd)
          (roomInv_alistInsert dmap pk.roomID _ hinv rfl)

theorem scanRoomFull_inv (device : Device) (userID roomID : String)
    (allEvents : List StreamEvent) :
    ∀ (evs : List StreamEvent) (dmap : List (String × StateDelta)),
      (dmap.map Prod.fst).Nodup → (∀ p ∈ dmap, (p.2 : StateDelta).roomID = p.1) →
      ((scanRoomFull device userID roomID allEvents evs dmap).map Prod.fst).Nodup ∧
      ∀ p ∈ scanRoomFull device userID roomID allEvents evs dmap,
        (p.2 : StateDelta).roomID = p.1 := by
  intro evs
  induction evs with
  | nil =>
    intro dmap hnd hinv
    exact ⟨hnd, hinv⟩
  | cons ev rest ih =>
    intro dmap hnd hinv
    simp only [scanRoomFull]
    by_cases c1 : (getMembershipFromEvent ev.event userID).1 = ""
    · rw [if_pos c1]
      exact ih dmap hnd hinv
    · rw [if_neg c1]
      by_cases c2 : (getMembershipFromEvent ev.event userID).1 ≠ GMSL.Join
      · rw [if_pos c2]
        exact ⟨keys_nodup_alistInsert dmap roomID _ hnd,
               roomInv_alistInsert dmap roomID _ hinv rfl⟩
      · rw [if_neg c2]
        exact ⟨hnd, hinv⟩

theorem classifyRoomsFull_inv (device : Device) (userID : String) :
    ∀ (entries : List (String × List StreamEvent)) (dmap : List (String × StateDelta)),
      (dmap.map Prod.fst).Nodup → (∀ p ∈ dmap, (p.2 : StateDelta).roomID = p.1) →
      ((classifyRoomsFull device userID entries dmap).map Prod.fst).Nodup ∧
      ∀ p ∈ classifyRoomsFull device userID entries dmap,
        (p.2 : StateDelta).roomID = p.1 := by
  intro entries
  induction entries with
  | nil =>
    intro dmap hnd hinv
    exact ⟨hnd, hinv⟩
  | cons e rest ih =>
    obtain ⟨roomID, evs⟩ := e
    intro dmap hnd hinv
    simp only [classifyRoomsFull]
    rcases scanRoomFull_inv device userID roomID evs evs dmap hnd hinv with ⟨h1, h2⟩
    exact ih _ h1 h2

theorem addJoinedFull_inv (store : Store) (device : Device) (sf : StateFilter) :
    ∀ (rooms : List String) (dmap dmap2 : List (String × StateDelta)),
      addJoinedFull store device sf rooms dmap = .ok dmap2 →
      (dmap.map Prod.fst).Nodup → (∀ p ∈ dmap, (p.2 : StateDelta).roomID = p.1) →
      (dmap2.map Prod.fst).Nodup ∧ ∀ p ∈ dmap2, (p.2 : StateDelta).roomID = p.1 := by
  intro rooms
  induction rooms with
  | nil =>
    intro dmap dmap2 h hnd hinv
    simp only [addJoinedFull, Except.ok.injEq] at h
    rw [← h]
    exact ⟨hnd, hinv⟩
  | cons rm rest ih =>
    intro dmap dmap2 h hnd hinv
    simp only [addJoinedFull] at h
    cases hcs : currentStateStreamEventsForRoom store rm sf with
    | error err =>
      rw [hcs] at h
      cases err with
      | noRows => exact ih dmap dmap2 h hnd hinv
      | storage m => cases h
      | wrapped c e => cases h
    | ok s =>
      rw [hcs] at h
      exact ih _ dmap2 h (keys_nodup_alistInsert dmap rm _ hnd)
        (roomInv_alistInsert dmap rm _ hinv rfl)

theorem addJoinedFull_get_not_mem (store : Store) (device : Device) (sf : StateFilter)
    (ours : String) :
    ∀ (rooms : List String) (dmap dmap2 : List (String × StateDelta)),
      addJoinedFull store device sf rooms dmap = .ok dmap2 →
      ours ∉ rooms →
      alistGet dmap2 ours = alistGet dmap ours := by
  intro rooms
  induction rooms with
  | nil =>
    intro dmap dmap2 h _
    simp only [addJoinedFull, Except.ok.injEq] at h
    rw [← h]
  | cons rm rest ih =>
    intro dmap dmap2 h hnm
    have hne : rm ≠ ours := fun hx => hnm (by simp [hx])
    have hnm2 : ours ∉ rest := fun hx => hnm (List.mem_cons_of_mem _ hx)
    simp only [addJoinedFull] at h
    cases hcs : currentStateStreamEventsForRoom store rm sf with
    | error err =>
      rw [hcs] at h
      cases err with
      | noRows => exact ih dmap dmap2 h hnm2
      | storage m => cases h
      | wrapped c e => cases h
    | ok s =>
      rw [hcs] at h
      rw [ih _ dmap2 h hnm2]
      exact alistGet_insert_ne dmap rm ours _ hne

theorem addJoinedFull_get_mem (store : Store) (device : Device) (sf : StateFilter)
    (ours : String) (cs : List Event)
    (hcs : store.selectCurrentState ours sf [] = .ok cs) :
    ∀ (rooms : List String) (dmap dmap2 : List (String × StateDelta)),
      addJoinedFull store device sf rooms dmap = .ok dmap2 →
      rooms.Nodup → ours ∈ rooms →
      alistGet dmap2 ours =
        some { membership := GMSL.Join,
               stateEvents := StreamEventsToEvents (some device)
                 (cs.map fun ev => { event := ev, streamPosition := 0 }),
               roomID := ours } := by
  intro rooms
  induction rooms with
  | nil =>
    intro dmap dmap2 _ _ hmem
    cases hmem
  | cons rm rest ih =>
    intro dmap dmap2 h hnd hmem
    simp only [List.nodup_cons] at hnd
    simp only [addJoinedFull] at h
    by_cases hr : rm = ours
    · subst hr
      simp only [currentStateStreamEventsForRoom, hcs] at h
      rw [addJoinedFull_get_not_mem store device sf rm rest _ dmap2 h hnd.1]
      exact alistGet_insert_self dmap rm _
    · have hmem2 : ours ∈ rest := by
        rcases List.mem_cons.mp hmem with hx | hx
        · exact absurd hx.symm hr
        · exact hx
      cases hcs2 : currentStateStreamEventsForRoom store rm sf with
      | error err =>
        rw [hcs2] at h
        cases err with
        | noRows => exact ih dmap dmap2 h hnd.2 hmem2
        | storage m => cases h
        | wrapped c e => cases h
      | ok s =>
        rw [hcs2] at h
        exact ih _ dmap2 h hnd.2 hmem2

theorem filter_values_not_mem (ours : String) :
    ∀ l : List (String × StateDelta),
      (∀ p ∈ l, (p.2 : StateDelta).roomID = p.1) →
      ours ∉ l.map Prod.fst →
      (l.map Prod.snd).filter (fun x => x.roomID == ours) = [] := by
  intro l
  induction l with
  | nil =>
    intro _ _
    rfl
  | cons p rest ih =>
    obtain ⟨k, v⟩ := p
    intro hinv hnm
    have hk : k ≠ ours := fun hx => hnm (by simp [hx])
    have hv : v.roomID = k := hinv (k, v) (List.mem_cons_self _ _)
    have hbeq : (v.roomID == ours) = false := by
      rw [hv]
      exact beq_eq_false_iff_ne.mpr hk
    rw [List.map_cons, List.filter_cons, if_neg (by simp [hbeq])]
    exact ih (fun q hq => hinv q (List.mem_cons_of_mem _ hq))
      (fun hx => hnm (List.mem_cons_of_mem _ hx))

theorem filter_values_of_get (ours : String) (d : StateDelta) :
    ∀ l : List (String × StateDelta),
      (l.map Prod.fst).Nodup → (∀ p ∈ l, (p.2 : StateDelta).roomID = p.1) →
      alistGet l ours = some d →
      (l.map Prod.snd).filter (fun x => x.roomID == ours) = [d] := by
  intro l
  induction l with
  | nil =>
    intro _ _ h
    simp [alistGet] at h
  | cons p rest ih =>
    obtain ⟨k, v⟩ := p
    intro hnd hinv hget
    simp only [List.map_cons, List.nodup_cons] at hnd
    have hv : v.roomID = k := hinv (k, v) (List.mem_cons_self _ _)
    by_cases hk : k = ours
    · subst hk
      have hget2 : v = d := by
        simpa [alistGet] using hget
      rw [List.map_cons, List.filter_cons, if_pos (by simp [hv]),
        filter_values_not_mem k rest (fun q hq => hinv q (List.mem_cons_of_mem _ hq)) hnd.1]
      show [v] = [d]
      rw [hget2]
    · have hbeq : (v.roomID == ours) = false := by
        rw [hv]
        exact beq_eq_false_iff_ne.mpr hk
      simp only [alistGet, if_neg hk] at hget
      rw [List.map_cons, List.filter_cons, if_neg (by simp [hbeq])]
      exact ih hnd.2 (fun q hq => hinv q (List.mem_cons_of_mem _ hq)) hget

/-- C3: in the full-state variant (`GetStateDeltasForFullStateSync`), deltas
live in a map keyed by room ID where later writes win, and every
currently-joined room whose current state is retrievable ends with exactly one
delta: membership join, state events the full current state synthesised at
stream position zero, overwriting any peek or membership-change delta recorded
earlier for that room. -/
theorem fullStateSync_joined_overwrites
    (store : Store) (device : Device) (r : Range) (userID : String) (sf : StateFilter)
    (ms : List (String × String)) (ours : String) (cs : List Event)
    (sn : List (String × List String)) (em : List (String × StreamEvent))
    (st : List (String × List StreamEvent)) (deltas : List StateDelta)
    (joined : List String)
    (hm : store.selectRoomIDsWithAnyMembership userID = .ok ms)
    (hmnd : (ms.map Prod.fst).Nodup)
    (hjoin : (ours, GMSL.Join) ∈ ms)
    (hsir : store.selectStateInRange r sf (ms.map Prod.fst) = .ok (sn, em))
    (hfse : fetchStateEvents store sn em = .ok st)
    (hcs : store.selectCurrentState ours sf [] = .ok cs)
    (hok : GetStateDeltasForFullStateSync store device r userID sf = .ok (deltas, joined)) :
    deltas.filter (fun d => d.roomID == ours) =
      [{ membership := GMSL.Join,
         stateEvents := StreamEventsToEvents (some device)
           (cs.map fun ev => { event := ev, streamPosition := 0 }),
         roomID := ours }] ∧
    ours ∈ joined := by
  simp only [GetStateDeltasForFullStateSync, hm] at hok
  cases hpr : absorbNoRowsPeeks (store.selectPeeksInRange userID device.id r) with
  | error err =>
    simp only [hpr] at hok
    cases hok
  | ok peeks =>
    simp only [hpr] at hok
    cases hpf : addPeekDeltasFull store device sf peeks [] with
    | error err =>
      simp only [hpf] at hok
      cases hok
    | ok dmap1 =>
      simp only [hpf, hsir, hfse] at hok
      cases hjf : addJoinedFull store device sf
          ((ms.filter fun m => m.2 == GMSL.Join).map Prod.fst)
          (classifyRoomsFull device userID st dmap1) with
      | error err =>
        simp only [hjf] at hok
        cases hok
      | ok dmapF =>
        simp only [hjf, Except.ok.injEq, Prod.mk.injEq] at hok
        obtain ⟨hok1, hok2⟩ := hok
        rcases addPeekDeltasFull_inv store device sf peeks [] dmap1 hpf (by simp)
            (by simp) with ⟨hnd1, hinv1⟩
        rcases classifyRoomsFull_inv device userID st dmap1 hnd1 hinv1 with ⟨hnd2, hinv2⟩
        rcases addJoinedFull_inv store device sf _ _ dmapF hjf hnd2 hinv2 with ⟨hndF, hinvF⟩
        have hJmem := mem_joined_of_mem ms ours hjoin
        have hJnd := joined_nodup ms hmnd
        have hgetF := addJoinedFull_get_mem store device sf ours cs hcs _ _ dmapF hjf
          hJnd hJmem
        constructor
        · rw [← hok1]
          exact filter_values_of_get ours _ dmapF hndF hinvF hgetF
        · rw [← hok2]
          exact hJmem

/-- C3 witness: at a concrete store where the user is joined to `!r` and also
peeks it, the peek delta is overwritten and exactly one join delta with the
full current state remains. -/
theorem fullStateSync_joined_overwrites_witness :
    ([({ membership := GMSL.Join, stateEvents := [{ event := evCreate }],
         roomID := "!r" } : StateDelta)].filter (fun d => d.roomID == "!r") =
      [{ membership := GMSL.Join,
         stateEvents := StreamEventsToEvents (some dev1)
           ([evCreate].map fun ev => { event := ev, streamPosition := 0 }),
         roomID := "!r" }]) ∧ "!r" ∈ ["!r"] :=
  fullStateSync_joined_overwrites storeC3w dev1 rg1 "@u:x" sf1
    [("!r", "join")] "!r" [evCreate] [] [] []
    [{ membership := GMSL.Join, stateEvents := [{ event := evCreate }], roomID := "!r" }]
    ["!r"]
    rfl (by decide) (by decide) rfl rfl rfl rfl

/-- C7: the delta engine treats a no-rows membership lookup or state-in-range
query as "no deltas" (ok with three nil results), recovers a no-rows
current-state lookup at the granularity of a single room (skipping that peek,
newly-joined room or joined room and continuing), and surfaces every other
storage error — from the membership lookup, the state-in-range query, the
state-event assembly, the peeks lookup, and the per-room current-state lookups
of every pass — in both `GetStateDeltas` and `GetStateDeltasForFullStateSync`. -/
theorem deltaEngine_notFound_policy
    (store : Store) (device : Device) (r : Range) (userID : String) (sf : StateFilter) :
    (store.selectRoomIDsWithAnyMembership userID = .error .noRows →
      GetStateDeltas store device r userID sf = .ok ([], []) ∧
      GetStateDeltasForFullStateSync store device r userID sf = .ok ([], [])) ∧
    (∀ err, err ≠ DBError.noRows →
      store.selectRoomIDsWithAnyMembership userID = .error err →
      GetStateDeltas store device r userID sf = .error err ∧
      GetStateDeltasForFullStateSync store device r userID sf = .error err) ∧
    (∀ ms, store.selectRoomIDsWithAnyMembership userID = .ok ms →
      store.selectStateInRange r sf (ms.map Prod.fst) = .error .noRows →
      GetStateDeltas store device r userID sf = .ok ([], [])) ∧
    (∀ ms sn em, store.selectRoomIDsWithAnyMembership userID = .ok ms →
      store.selectStateInRange r sf (ms.map Prod.fst) = .ok (sn, em) →
      fetchStateEvents store sn em = .error .noRows →
      GetStateDeltas store device r userID sf = .ok ([], [])) ∧
    (∀ ms peeks dmap1, store.selectRoomIDsWithAnyMembership userID = .ok ms →
      absorbNoRowsPeeks (store.selectPeeksInRange userID device.id r) = .ok peeks →
      addPeekDeltasFull store device sf peeks [] = .ok dmap1 →
      store.selectStateInRange r sf (ms.map Prod.fst) = .error .noRows →
      GetStateDeltasForFullStateSync store device r userID sf = .ok ([], [])) ∧
    (∀ ms peeks dmap1 sn em, store.selectRoomIDsWithAnyMembership userID = .ok ms →
      absorbNoRowsPeeks (store.selectPeeksInRange userID device.id r) = .ok peeks →
      addPeekDeltasFull store device sf peeks [] = .ok dmap1 →
      store.selectStateInRange r sf (ms.map Prod.fst) = .ok (sn, em) →
      fetchStateEvents store sn em = .error .noRows →
      GetStateDeltasForFullStateSync store device r userID sf = .ok ([], [])) ∧
    (∀ (pk : Peek) ps state deltas, pk.new = true →
      store.selectCurrentState pk.roomID sf [] = .error .noRows →
      addPeekDeltas store device sf (pk :: ps) state deltas =
        addPeekDeltas store device sf ps state deltas) ∧
    (∀ (pk : Peek) ps dmap, pk.deleted = false →
      store.selectCurrentState pk.roomID sf [] = .error .noRows →
      addPeekDeltasFull store device sf (pk :: ps) dmap =
        addPeekDeltasFull store device sf ps dmap) ∧
    (∀ (roomID : String) (ev : StreamEvent) rest state nj prevM,
      getMembershipFromEvent ev.event userID = (GMSL.Join, prevM) →
      prevM ≠ GMSL.Join →
      store.selectCurrentState roomID sf [] = .error .noRows →
      scanStateEvents store userID sf roomID (ev :: rest) state nj =
        scanStateEvents store userID sf roomID rest state nj) ∧
    (∀ (roomID : String) rest dmap,
      store.selectCurrentState roomID sf [] = .error .noRows →
      addJoinedFull store device sf (roomID :: rest) dmap =
        addJoinedFull store device sf rest dmap) ∧
    (∀ ms err, err ≠ DBError.noRows →
      store.selectRoomIDsWithAnyMembership userID = .ok ms →
      store.selectStateInRange r sf (ms.map Prod.fst) = .error err →
      GetStateDeltas store device r userID sf = .error err) ∧
    (∀ ms sn em err, err ≠ DBError.noRows →
      store.selectRoomIDsWithAnyMembership userID = .ok ms →
      store.selectStateInRange r sf (ms.map Prod.fst) = .ok (sn, em) →
      fetchStateEvents store sn em = .error err →
      GetStateDeltas store device r userID sf = .error err) ∧
    (∀ ms sn em st err, err ≠ DBError.noRows →
      store.selectRoomIDsWithAnyMembership userID = .ok ms →
      store.selectStateInRange r sf (ms.map Prod.fst) = .ok (sn, em) →
      fetchStateEvents store sn em = .ok st →
      store.selectPeeksInRange userID device.id r = .error err →
      GetStateDeltas store device r userID sf = .error err) ∧
    (∀ ms sn em st peeks err,
      store.selectRoomIDsWithAnyMembership userID = .ok ms →
      store.selectStateInRange r sf (ms.map Prod.fst) = .ok (sn, em) →
      fetchStateEvents store sn em = .ok st →
      absorbNoRowsPeeks (store.selectPeeksInRange userID device.id r) = .ok peeks →
      addPeekDeltas store device sf peeks st [] = .error err →
      GetStateDeltas store device r userID sf = .error err) ∧
    (∀ ms sn em st peeks deltas1 state1 err,
      store.selectRoomIDsWithAnyMembership userID = .ok ms →
      store.selectStateInRange r sf (ms.map Prod.fst) = .ok (sn, em) →
      fetchStateEvents store sn em = .ok st →
      absorbNoRowsPeeks (store.selectPeeksInRange userID device.id r) = .ok peeks →
      addPeekDeltas store device sf peeks st [] = .ok (deltas1, state1) →
      classifyRooms store device userID sf state1 state1 deltas1 [] = .error err →
      GetStateDeltas store device r userID sf = .error err) ∧
    (∀ (pk : Peek) ps state deltas err, err ≠ DBError.noRows → pk.new = true →
      store.selectCurrentState pk.roomID sf [] = .error err →
      addPeekDeltas store device sf (pk :: ps) state deltas = .error err) ∧
    (∀ (roomID : String) (ev : StreamEvent) rest state nj prevM err,
      err ≠ DBError.noRows →
      getMembershipFromEvent ev.event userID = (GMSL.Join, prevM) →
      prevM ≠ GMSL.Join →
      store.selectCurrentState roomID sf [] = .error err →
      scanStateEvents store userID sf roomID (ev :: rest) state nj = .error err) ∧
    (∀ ms err, err ≠ DBError.noRows →
      store.selectRoomIDsWithAnyMembership userID = .ok ms →
      store.selectPeeksInRange userID device.id r = .error err →
      GetStateDeltasForFullStateSync store device r userID sf = .error err) ∧
    (∀ ms peeks err,
      store.selectRoomIDsWithAnyMembership userID = .ok ms →
      absorbNoRowsPeeks (store.selectPeeksInRange userID device.id r) = .ok peeks →
      addPeekDeltasFull store device sf peeks [] = .error err →
      GetStateDeltasForFullStateSync store device r userID sf = .error err) ∧
    (∀ (pk : Peek) ps dmap err, err ≠ DBError.noRows → pk.deleted = false →
      store.selectCurrentState pk.roomID sf [] = .error err →
      addPeekDeltasFull store device sf (pk :: ps) dmap = .error err) ∧
    (∀ ms peeks dmap1 err, err ≠ DBError.noRows →
      store.selectRoomIDsWithAnyMembership userID = .ok ms →
      absorbNoRowsPeeks (store.selectPeeksInRange userID device.id r) = .ok peeks →
      addPeekDeltasFull store device sf peeks [] = .ok dmap1 →
      store.selectStateInRange r sf (ms.map Prod.fst) = .error err →
      GetStateDeltasForFullStateSync store device r userID sf = .error err) ∧
    (∀ ms peeks dmap1 sn em err, err ≠ DBError.noRows →
      store.selectRoomIDsWithAnyMembership userID = .ok ms →
      absorbNoRowsPeeks (store.selectPeeksInRange userID device.id r) = .ok peeks →
      addPeekDeltasFull store device sf peeks [] = .ok dmap1 →
      store.selectStateInRange r sf (ms.map Prod.fst) = .ok (sn, em) →
      fetchStateEvents store sn em = .error err →
      GetStateDeltasForFullStateSync store device r userID sf = .error err) ∧
    (∀ ms peeks dmap1 sn em st err,
      store.selectRoomIDsWithAnyMembership userID = .ok ms →
      absorbNoRowsPeeks (store.selectPeeksInRange userID device.id r) = .ok peeks →
      addPeekDeltasFull store device sf peeks [] = .ok dmap1 →
      store.selectStateInRange r sf (ms.map Prod.fst) = .ok (sn, em) →
      fetchStateEvents store sn em = .ok st →
      addJoinedFull store device sf ((ms.filter fun m => m.2 == GMSL.Join).map Prod.fst)
        (classifyRoomsFull device userID st dmap1) = .error err →
      GetStateDeltasForFullStateSync store device r userID sf = .error err) ∧
    (∀ (roomID : String) rest dmap err, err ≠ DBError.noRows →
      store.selectCurrentState roomID sf [] = .error err →
      addJoinedFull store device sf (roomID :: rest) dmap = .error err) := by
  refine ⟨?_, ?_, ?_, ?_, ?_, ?_, ?_, ?_, ?_, ?_, ?_, ?_, ?_, ?_, ?_, ?_, ?_, ?_, ?_,
    ?_, ?_, ?_, ?_, ?_⟩
  · intro h
    constructor
    · simp [GetStateDeltas, h]
    · simp [GetStateDeltasForFullStateSync, h]
  · intro err hne h
    cases err with
    | noRows => exact absurd rfl hne
    | storage m =>
      exact ⟨by simp [GetStateDeltas, h], by simp [GetStateDeltasForFullStateSync, h]⟩
    | wrapped c e =>
      exact ⟨by simp [GetStateDeltas, h], by simp [GetStateDeltasForFullStateSync, h]⟩
  · intro ms hm hs
    simp [GetStateDeltas, hm, hs]
  · intro ms sn em hm hs hf
    simp [GetStateDeltas, hm, hs, hf]
  · intro ms peeks dmap1 hm hp hpf hs
    simp [GetStateDeltasForFullStateSync, hm, hp, hpf, hs]
  · intro ms peeks dmap1 sn em hm hp hpf hs hf
    simp [GetStateDeltasForFullStateSync, hm, hp, hpf, hs, hf]
  · intro pk ps state deltas hnew hcs
    simp only [addPeekDeltas]
    rw [if_pos hnew]
    simp [currentStateStreamEventsForRoom, hcs]
  · intro pk ps dmap hdel hcs
    simp only [addPeekDeltasFull]
    rw [if_neg (by simp [hdel])]
    simp [currentStateStreamEventsForRoom, hcs]
  · intro roomID ev rest state nj prevM hJ hprev hcs
    have hne : (GMSL.Join, prevM).1 ≠ "" := by
      simp [GMSL.Join]
    simp only [scanStateEvents, hJ]
    rw [if_neg hne]
    rw [if_pos (show True ∧ prevM ≠ GMSL.Join from ⟨trivial, hprev⟩)]
    simp [currentStateStreamEventsForRoom, hcs]
  · intro roomID rest dmap hcs
    simp only [addJoinedFull]
    simp [currentStateStreamEventsForRoom, hcs]
  · intro ms err hne hm hs
    cases err with
    | noRows => exact absurd rfl hne
    | storage m => simp [GetStateDeltas, hm, hs]
    | wrapped c e => simp [GetStateDeltas, hm, hs]
  · intro ms sn em err hne hm hs hf
    cases err with
    | noRows => exact absurd rfl hne
    | storage m => simp [GetStateDeltas, hm, hs, hf]
    | wrapped c e => simp [GetStateDeltas, hm, hs, hf]
  · intro ms sn em st err hne hm hs hf hp
    cases err with
    | noRows => exact absurd rfl hne
    | storage m => simp [GetStateDeltas, hm, hs, hf, absorbNoRowsPeeks, hp]
    | wrapped c e => simp [GetStateDeltas, hm, hs, hf, absorbNoRowsPeeks, hp]
  · intro ms sn em st peeks err hm hs hf hp hpd
    simp [GetStateDeltas, hm, hs, hf, hp, hpd]
  · intro ms sn em st peeks deltas1 state1 err hm hs hf hp hpd hC
    simp [GetStateDeltas, hm, hs, hf, hp, hpd, hC]
  · intro pk ps state deltas err hne hnew hcs
    simp only [addPeekDeltas]
    rw [if_pos hnew]
    cases err with
    | noRows => exact absurd rfl hne
    | storage m => simp [currentStateStreamEventsForRoom, hcs]
    | wrapped c e => simp [currentStateStreamEventsForRoom, hcs]
  · intro roomID ev rest state nj prevM err hne hJ hprev hcs
    have hne2 : (GMSL.Join, prevM).1 ≠ "" := by
      simp [GMSL.Join]
    simp only [scanStateEvents, hJ]
    rw [if_neg hne2]
    rw [if_pos (show True ∧ prevM ≠ GMSL.Join from ⟨trivial, hprev⟩)]
    cases err with
    | noRows => exact absurd rfl hne
    | storage m => simp [currentStateStreamEventsForRoom, hcs]
    | wrapped c e => simp [currentStateStreamEventsForRoom, hcs]
  · intro ms err hne hm hp
    cases err with
    | noRows => exact absurd rfl hne
    | storage m => simp [GetStateDeltasForFullStateSync, hm, absorbNoRowsPeeks, hp]
    | wrapped c e => simp [GetStateDeltasForFullStateSync, hm, absorbNoRowsPeeks, hp]
  · intro ms peeks err hm hp hpf
    simp [GetStateDeltasForFullStateSync, hm, hp, hpf]
  · intro pk ps dmap err hne hdel hcs
    simp only [addPeekDeltasFull]
    rw [if_neg (by simp [hdel])]
    cases err with
    | noRows => exact absurd rfl hne
    | storage m => simp [currentStateStreamEventsForRoom, hcs]
    | wrapped c e => simp [currentStateStreamEventsForRoom, hcs]
  · intro ms peeks dmap1 err hne hm hp hpf hs
    cases err with
    | noRows => exact absurd rfl hne
    | storage m => simp [GetStateDeltasForFullStateSync, hm, hp, hpf, hs]
    | wrapped c e => simp [GetStateDeltasForFullStateSync, hm, hp, hpf, hs]
  · intro ms peeks dmap1 sn em err hne hm hp hpf hs hf
    cases err with
    | noRows => exact absurd rfl hne
    | storage m => simp [GetStateDeltasForFullStateSync, hm, hp, hpf, hs, hf]
    | wrapped c e => simp [GetStateDeltasForFullStateSync, hm, hp, hpf, hs, hf]
  · intro ms peeks dmap1 sn em st err hm hp hpf hs hf hjf
    simp [GetStateDeltasForFullStateSync, hm, hp, hpf, hs, hf, hjf]
  · intro roomID rest dmap err hne hcs
    simp only [addJoinedFull]
    cases err with
    | noRows => exact absurd rfl hne
    | storage m => simp [currentStateStreamEventsForRoom, hcs]
    | wrapped c e => simp [currentStateStreamEventsForRoom, hcs]

/-- C7 witness: at the base store, whose membership lookup reports no rows,
both delta engines return the empty triple with no error. -/
theorem deltaEngine_notFound_policy_witness :
    GetStateDeltas baseStore dev1 rg1 "@u:x" sf1 = .ok ([], []) ∧
    GetStateDeltasForFullStateSync baseStore dev1 rg1 "@u:x" sf1 = .ok ([], []) :=
  (deltaEngine_notFound_policy baseStore dev1 rg1 "@u:x" sf1).1 rfl

end SyncShared
